import Mathlib

/-!
Verification of the Hacker News client (`src/index.ts`) against its
specification.  The TypeScript program decodes JSON from the Hacker News API
with io-ts validators, formats the decoded items, and prints them.  This file
gives a shallow embedding of the program: JSON values, the validator
combinators used by the source, the five item variants, the presenter
`formatItem`, and the fetch pipeline `fetchTopStories` / `main` (with the
network abstracted as an environment of responses).
-/

set_option maxHeartbeats 1000000

namespace HN

/-- Modelled from the spec: the decoder's "input is an arbitrary already-parsed
JSON value (object/array/string/number/boolean/null)".  The JavaScript value
`undefined` is included because reading an absent object property yields it,
and the `optional` combinator in the source accepts it (`t.undefined`).
JSON numbers are modelled as integers; no claim depends on fractional values. -/
inductive Json where
  | null
  | undefined
  | bool (b : Bool)
  | num (n : Int)
  | str (s : String)
  | arr (elems : List Json)
  | obj (fields : List (String × Json))

/-- Modelled from the spec: JavaScript property read `d[k]` on a parsed JSON
object — the binding of the key, or `undefined` when the key is absent. -/
def lookupField : List (String × Json) → String → Json
  | [], _ => .undefined
  | (k, v) :: fs, k2 => if k2 = k then v else lookupField fs k2

/-- Property read on an arbitrary JSON value (non-objects have no fields). -/
def Json.get : Json → String → Json
  | .obj fs, k => lookupField fs k
  | _, _ => .undefined

/-- Modelled from the spec: one field-level validation failure, "naming the
failing field's path ... and the expected-vs-actual type description". -/
structure VError where
  path : List String
  expected : String
  actual : Json

/-- Context: the path of field names leading to the value being validated. -/
abbrev Ctx := List String

/-- Result of running a validator: a typed value or the collected failures. -/
abbrev VResult (α : Type) := Except (List VError) α

/-- A validator takes a JSON value and the current context path. -/
abbrev Validator (α : Type) := Json → Ctx → VResult α

/-- Modelled from the spec: applicative combination that collects failures
from both sides instead of stopping at the first one ("collected (not
short-circuited per field) so that a single decode attempt surfaces all
problems in one pass"). -/
def vMap2 {α β γ : Type} (f : α → β → γ) : VResult α → VResult β → VResult γ
  | .ok a, .ok b => .ok (f a b)
  | .ok _, .error e => .error e
  | .error e, .ok _ => .error e
  | .error e1, .error e2 => .error (e1 ++ e2)

/-- Sequence a function-valued result over an argument result, collecting
failures from both. -/
def seqV {α β : Type} (rf : VResult (α → β)) (ra : VResult α) : VResult β :=
  vMap2 (fun f a => f a) rf ra

/-- The failures carried by a result (`[]` on success). -/
def errsOf {α : Type} : VResult α → List VError
  | .ok _ => []
  | .error e => e

/-- Modelled from the spec: the `t.string` primitive validator. -/
def vString : Validator String := fun j c =>
  match j with
  | .str s => .ok s
  | _ => .error [⟨c, "string", j⟩]

/-- Modelled from the spec: the `t.number` primitive validator (the source's
`ID_V` is an alias for it). -/
def vNumber : Validator Int := fun j c =>
  match j with
  | .num n => .ok n
  | _ => .error [⟨c, "number", j⟩]

/-- Modelled from the spec: the `t.boolean` primitive validator. -/
def vBoolean : Validator Bool := fun j c =>
  match j with
  | .bool b => .ok b
  | _ => .error [⟨c, "boolean", j⟩]

/-- Modelled from the spec: the `t.undefined` primitive validator. -/
def vUndefined : Validator Unit := fun j c =>
  match j with
  | .undefined => .ok ()
  | _ => .error [⟨c, "undefined", j⟩]

/-- Modelled from the spec: the `t.literal` validator for a string tag. -/
def vLiteral (lit : String) : Validator String := fun j c =>
  match j with
  | .str s => if s = lit then .ok s else .error [⟨c, "\"" ++ lit ++ "\"", j⟩]
  | _ => .error [⟨c, "\"" ++ lit ++ "\"", j⟩]

/-- Helper for `t.array`: validate each element, appending its index to the
context, collecting the failures of every element. -/
def vArrayAux {α : Type} (v : Validator α) (c : Ctx) : Nat → List Json → VResult (List α)
  | _, [] => .ok []
  | i, x :: xs => vMap2 List.cons (v x (c ++ [toString i])) (vArrayAux v c (i + 1) xs)

/-- Modelled from the spec: the `t.array` validator. -/
def vArray {α : Type} (v : Validator α) : Validator (List α) := fun j c =>
  match j with
  | .arr xs => vArrayAux v c 0 xs
  | _ => .error [⟨c, "array", j⟩]

/-- Validate the field `k` of an object, extending the context path with the
field name (the `t.type` per-key step). -/
def vField {α : Type} (v : Validator α) (k : String) : Validator α := fun j c =>
  v (j.get k) (c ++ [k])

/-- The source's `optional` combinator: `t.union([type, t.undefined], name)`.
An absent or `undefined` value decodes to the explicit absent marker `none`;
a value accepted by the base validator decodes to `some`; anything else
(including `null`) fails with the failures of both union members.  The union
semantics is modelled from the spec ("wraps a base validator `V` to also
accept `undefined`/absent, producing a validator whose success type is
`T | absent`"); the `name` argument of the source only names the combined
validator and is not tracked here. -/
def optional {α : Type} (v : Validator α) : Validator (Option α) := fun j c =>
  match v j c with
  | .ok a => .ok (some a)
  | .error e =>
    match j with
    | .undefined => .ok none
    | _ => .error (e ++ [⟨c, "undefined", j⟩])

/-- Fields common to all item types except `pollopt` (`ItemCommonV`). -/
structure ItemCommon where
  «by» : String
  id : Int
  time : Int
  dead : Option Bool
  deleted : Option Bool
  kids : Option (List Int)

/-- Fields common to stories, job postings and polls (`TopLevelV`). -/
structure TopLevel where
  score : Int
  title : String

/-- The `Story` variant: its own fields plus `ItemCommon` and `TopLevel`. -/
structure Story where
  descendants : Int
  text : Option String
  url : Option String
  common : ItemCommon
  top : TopLevel

/-- The `Job` variant. -/
structure Job where
  text : Option String
  url : Option String
  common : ItemCommon
  top : TopLevel

/-- The `Poll` variant. -/
structure Poll where
  descendants : Int
  parts : List Int
  common : ItemCommon
  top : TopLevel

/-- The `Comment` variant. -/
structure Comment where
  parent : Int
  text : String
  common : ItemCommon

/-- The `PollOpt` variant. -/
structure PollOpt where
  poll : Int
  score : Int
  text : String

/-- The closed tagged union of the five variants (`Item`). -/
inductive Item where
  | story (s : Story)
  | job (j : Job)
  | poll (p : Poll)
  | pollopt (p : PollOpt)
  | comment (c : Comment)

/-- The discriminant tag of a decoded item. -/
def Item.tag : Item → String
  | .story _ => "story"
  | .job _ => "job"
  | .poll _ => "poll"
  | .pollopt _ => "pollopt"
  | .comment _ => "comment"

/-- `ItemCommonV` from the source: `t.type` over the six common fields.
Per io-ts `t.type` semantics (modelled from the spec, step 3/4 of the
tagged-union algorithm), the input must be an object, each declared key is
validated with the field name appended to the path, failures of all keys are
collected, and undeclared keys are ignored. -/
def ItemCommonV : Validator ItemCommon := fun j c =>
  match j with
  | .obj _ =>
    seqV (seqV (seqV (seqV (seqV (seqV (Except.ok ItemCommon.mk)
      (vField vString "by" j c))
      (vField vNumber "id" j c))
      (vField vNumber "time" j c))
      (vField (optional vBoolean) "dead" j c))
      (vField (optional vBoolean) "deleted" j c))
      (vField (optional (vArray vNumber)) "kids" j c)
  | _ => .error [⟨c, "object", j⟩]

/-- `TopLevelV` from the source: `t.type({ score, title })`. -/
def TopLevelV : Validator TopLevel := fun j c =>
  match j with
  | .obj _ =>
    seqV (seqV (Except.ok TopLevel.mk)
      (vField vNumber "score" j c))
      (vField vString "title" j c)
  | _ => .error [⟨c, "object", j⟩]

/-- `StoryV` from the source: the intersection of the variant's own `t.type`
(`type` literal, `descendants`, `text`, `url`), `ItemCommonV` and `TopLevelV`,
validated in that order with failures concatenated in component order. -/
def StoryV : Validator Story := fun j c =>
  match j with
  | .obj _ =>
    seqV (seqV (seqV (seqV (seqV
      (vMap2 (fun _ mk => mk) (vField (vLiteral "story") "type" j c) (Except.ok Story.mk))
      (vField vNumber "descendants" j c))
      (vField (optional vString) "text" j c))
      (vField (optional vString) "url" j c))
      (ItemCommonV j c))
      (TopLevelV j c)
  | _ => .error [⟨c, "object", j⟩]

/-- `JobV` from the source. -/
def JobV : Validator Job := fun j c =>
  match j with
  | .obj _ =>
    seqV (seqV (seqV (seqV
      (vMap2 (fun _ mk => mk) (vField (vLiteral "job") "type" j c) (Except.ok Job.mk))
      (vField (optional vString) "text" j c))
      (vField (optional vString) "url" j c))
      (ItemCommonV j c))
      (TopLevelV j c)
  | _ => .error [⟨c, "object", j⟩]

/-- `PollV` from the source. -/
def PollV : Validator Poll := fun j c =>
  match j with
  | .obj _ =>
    seqV (seqV (seqV (seqV
      (vMap2 (fun _ mk => mk) (vField (vLiteral "poll") "type" j c) (Except.ok Poll.mk))
      (vField vNumber "descendants" j c))
      (vField (vArray vNumber) "parts" j c))
      (ItemCommonV j c))
      (TopLevelV j c)
  | _ => .error [⟨c, "object", j⟩]

/-- `CommentV` from the source. -/
def CommentV : Validator Comment := fun j c =>
  match j with
  | .obj _ =>
    seqV (seqV (seqV
      (vMap2 (fun _ mk => mk) (vField (vLiteral "comment") "type" j c) (Except.ok Comment.mk))
      (vField vNumber "parent" j c))
      (vField vString "text" j c))
      (ItemCommonV j c)
  | _ => .error [⟨c, "object", j⟩]

/-- `PollOptV` from the source. -/
def PollOptV : Validator PollOpt := fun j c =>
  match j with
  | .obj _ =>
    seqV (seqV (seqV
      (vMap2 (fun _ mk => mk) (vField (vLiteral "pollopt") "type" j c) (Except.ok PollOpt.mk))
      (vField vNumber "poll" j c))
      (vField vNumber "score" j c))
      (vField vString "text" j c)
  | _ => .error [⟨c, "object", j⟩]

/-- The expected-description for the `type` tag of the union: the accepted
literal values in the order the variants are listed in the source. -/
def itemTagName : String :=
  "\"comment\" | \"job\" | \"poll\" | \"pollopt\" | \"story\""

/-- `ItemV` from the source: `t.taggedUnion("type", [CommentV, JobV, PollV,
PollOptV, StoryV])`.  Modelled from the spec ("Reads the discriminant field
from the input object; if absent or not a string/known literal, fails
immediately with a single error naming the field and the set of accepted
literal values — does not attempt any variant.  Selects exactly the one
variant schema whose literal tag matches"). -/
def ItemV : Validator Item := fun j c =>
  match j with
  | .obj _ =>
    match j.get "type" with
    | .str s =>
      if s = "comment" then Except.map Item.comment (CommentV j c)
      else if s = "job" then Except.map Item.job (JobV j c)
      else if s = "poll" then Except.map Item.poll (PollV j c)
      else if s = "pollopt" then Except.map Item.pollopt (PollOptV j c)
      else if s = "story" then Except.map Item.story (StoryV j c)
      else .error [⟨c ++ ["type"], itemTagName, .str s⟩]
    | other => .error [⟨c ++ ["type"], itemTagName, other⟩]
  | _ => .error [⟨c, "object", j⟩]

/-- `formatItem` from the source: one line of text per item, dispatching on
the variant tag; the comment text is excerpted at 60 characters. -/
def formatItem (item : Item) : String :=
  match item with
  | .story s => "\"" ++ s.top.title ++ "\" submitted by " ++ s.common.«by»
  | .job jb => "job posting: " ++ jb.top.title
  | .poll p =>
    "poll: \"" ++ p.top.title ++ "\" - choose one of " ++
      toString p.parts.length ++ " options"
  | .pollopt p => "poll option: " ++ p.text
  | .comment cm =>
    cm.common.«by» ++ " commented: " ++
      (if cm.text.length > 60 then cm.text.take 60 ++ "..." else cm.text)

mutual

/-- Modelled from the spec: rendering of the offending value in a report line
(the reporter's "but instead got: ..." part). -/
def jsonRender : Json → String
  | .null => "null"
  | .undefined => "undefined"
  | .bool b => if b then "true" else "false"
  | .num n => toString n
  | .str s => "\"" ++ s ++ "\""
  | .arr xs => "[" ++ jsonRenderSeq xs ++ "]"
  | .obj fs => "\x7b" ++ jsonRenderFields fs ++ "\x7d"

/-- Render the elements of a JSON array, comma separated. -/
def jsonRenderSeq : List Json → String
  | [] => ""
  | [x] => jsonRender x
  | x :: xs => jsonRender x ++ "," ++ jsonRenderSeq xs

/-- Render the fields of a JSON object, comma separated. -/
def jsonRenderFields : List (String × Json) → String
  | [] => ""
  | [(k, v)] => "\"" ++ k ++ "\":" ++ jsonRender v
  | (k, v) :: fs => "\"" ++ k ++ "\":" ++ jsonRender v ++ "," ++ jsonRenderFields fs

end

/-- Modelled from the spec: the reporter's message for one failure, naming the
failing field's path and the expected-vs-actual description. -/
def formatError (e : VError) : String :=
  "Expecting " ++ e.expected ++
    (match e.path with
     | [] => ""
     | _ => " at " ++ String.intercalate "." e.path) ++
    " but instead got: " ++ jsonRender e.actual

/-- `decodeToPromise` from the source: run the validator and fold the result,
turning the collected failures into a single rejected promise whose error
message joins the individual reports with newlines.  The promise is modelled
as `Except` with the error's message as the error value. -/
def decodeToPromise {α : Type} (v : Validator α) (input : Json) : Except String α :=
  match v input [] with
  | .error errs => .error (String.intercalate "\n" (errs.map formatError))
  | .ok a => .ok a

/-- Modelled from the spec: the network, an "external collaborator (an HTTP
fetch function returning raw bytes/JSON)".  Each endpoint either produces a
parsed JSON body or fails with a transport error message. -/
structure Env where
  topstories : Except String Json
  item : Int → Except String Json

/-- `fetchItem` from the source: fetch one item by ID and decode it with
`ItemV`; a transport error propagates unchanged. -/
def fetchItem (env : Env) (id : Int) : Except String Item :=
  match env.item id with
  | .error e => .error e
  | .ok j => decodeToPromise ItemV j

/-- Modelled from the spec: `Promise.all` applied to a list of per-element
promises, as the ordered "map across a collection" combinator — its settled
value lists the results in input order whatever the completion order of the
members, and it rejects as a whole if any member rejects. -/
def promiseAll {α β : Type} (f : α → Except String β) : List α → Except String (List β)
  | [] => .ok []
  | x :: xs =>
    match f x, promiseAll f xs with
    | .error e, _ => .error e
    | .ok _, .error e => .error e
    | .ok y, .ok ys => .ok (y :: ys)

/-- Modelled from the spec: JavaScript `Array.prototype.slice(0, end)` — for
`end ≥ 0` the first `min end length` elements, for `end < 0` all elements but
the last `|end|`. -/
def jsSlice {α : Type} (xs : List α) (stop : Int) : List α :=
  let len : Int := (xs.length : Int)
  let stop2 : Int := if stop < 0 then max (len + stop) 0 else min stop len
  xs.take stop2.toNat

/-- `fetchTopStories` from the source: fetch the ID list, decode it with
`t.array(ID_V)`, slice off the first `count` IDs, and fetch each of them.
`Promise.all` over the per-ID fetches is modelled as the ordered `mapM` (its
settled value lists results in input order whatever the completion order, and
it rejects as a whole if any member rejects). -/
def fetchTopStories (env : Env) (count : Int) : Except String (List Item) :=
  match env.topstories with
  | .error e => .error e
  | .ok j =>
    match decodeToPromise (vArray vNumber) j with
    | .error e => .error e
    | .ok ids => promiseAll (fetchItem env) (jsSlice ids count)

/-- Modelled from the spec: the observable outcome of one run of the process —
the lines passed to `console.log`, the lines passed to `console.error`, and
the process exit code. -/
structure ProcessResult where
  stdout : List String
  stderr : List String
  exitCode : Nat

/-- `main` from the source: fetch the top 15 items and log each formatted item
followed by an extra newline; any error of the pipeline is caught, its message
is logged to standard error, and `main` returns normally.  No exit code is
ever set by the program, so the process exits with the runtime's default code
0 in both branches (Node exit semantics modelled from the source's absence of
any `process.exit`/`process.exitCode` use). -/
def main (env : Env) : ProcessResult :=
  match fetchTopStories env 15 with
  | .ok stories => ⟨stories.map (fun s => formatItem s ++ "\n"), [], 0⟩
  | .error e => ⟨[], [e], 0⟩

/-- Does a JSON value fail to be one of the five accepted `type` tags?  Used
to state the tagged-union dispatch property. -/
def badItemTag (j : Json) : Bool :=
  match j with
  | .str s =>
    decide (¬(s = "comment" ∨ s = "job" ∨ s = "poll" ∨ s = "pollopt" ∨ s = "story"))
  | _ => true

/-- A well-formed story object whose `by` and `title` are the given strings
(optional fields omitted). -/
def storyJson (b t : String) : Json :=
  .obj [("type", .str "story"), ("descendants", .num 0), ("by", .str b),
    ("id", .num 1), ("time", .num 2), ("score", .num 3), ("title", .str t)]

/-- A well-formed job object whose `by` and `title` are the given strings. -/
def jobJson (b t : String) : Json :=
  .obj [("type", .str "job"), ("by", .str b), ("id", .num 1), ("time", .num 2),
    ("score", .num 3), ("title", .str t)]

/-- A well-formed poll object whose `by` and `title` are the given strings. -/
def pollJson (b t : String) : Json :=
  .obj [("type", .str "poll"), ("descendants", .num 0), ("parts", .arr []),
    ("by", .str b), ("id", .num 1), ("time", .num 2), ("score", .num 3),
    ("title", .str t)]

/-- A well-formed comment object whose `by` is the given string. -/
def commentJson (b : String) : Json :=
  .obj [("type", .str "comment"), ("parent", .num 4), ("text", .str "c"),
    ("by", .str b), ("id", .num 1), ("time", .num 2)]

/-- The keys declared by `ItemCommonV`. -/
def commonKeys : List String := ["by", "id", "time", "dead", "deleted", "kids"]

/-- The keys declared by `TopLevelV`. -/
def topKeys : List String := ["score", "title"]

/-- The keys declared by the `Story` schema (own keys, then the intersected
common and top-level keys). -/
def storyKeys : List String :=
  ["type", "descendants", "text", "url"] ++ commonKeys ++ topKeys

/-- The keys declared by the `Job` schema. -/
def jobKeys : List String := ["type", "text", "url"] ++ commonKeys ++ topKeys

/-- The keys declared by the `Poll` schema. -/
def pollKeys : List String :=
  ["type", "descendants", "parts"] ++ commonKeys ++ topKeys

/-- The keys declared by the `Comment` schema. -/
def commentKeys : List String := ["type", "parent", "text"] ++ commonKeys

/-- The keys declared by the `PollOpt` schema. -/
def polloptKeys : List String := ["type", "poll", "score", "text"]

/-- The keys declared by the variant schema selected by a tag. -/
def variantKeys : String → List String
  | "story" => storyKeys
  | "job" => jobKeys
  | "poll" => pollKeys
  | "pollopt" => polloptKeys
  | "comment" => commentKeys
  | _ => []

/-- The failures of the six `ItemCommonV` fields on an input, in declaration
order. -/
def commonFieldErrors (j : Json) (c : Ctx) : List VError :=
  errsOf (vField vString "by" j c) ++ errsOf (vField vNumber "id" j c) ++
  errsOf (vField vNumber "time" j c) ++
  errsOf (vField (optional vBoolean) "dead" j c) ++
  errsOf (vField (optional vBoolean) "deleted" j c) ++
  errsOf (vField (optional (vArray vNumber)) "kids" j c)

/-- The failures of the two `TopLevelV` fields on an input, in declaration
order. -/
def topFieldErrors (j : Json) (c : Ctx) : List VError :=
  errsOf (vField vNumber "score" j c) ++ errsOf (vField vString "title" j c)

/-- The failures of every field of the `Story` schema on an input, in
validation order: the variant's own fields, then the common fields, then the
top-level fields. -/
def storyFieldErrors (j : Json) (c : Ctx) : List VError :=
  errsOf (vField (vLiteral "story") "type" j c) ++
  errsOf (vField vNumber "descendants" j c) ++
  errsOf (vField (optional vString) "text" j c) ++
  errsOf (vField (optional vString) "url" j c) ++
  commonFieldErrors j c ++ topFieldErrors j c

/-- A well-formed pollopt object with the given score, used to build concrete
environments. -/
def polloptJson (n : Int) : Json :=
  .obj [("type", .str "pollopt"), ("poll", .num 9), ("score", .num n),
    ("text", .str "opt")]

/-- A concrete environment: the ID list is `[1, 2]` and the item fetch for
ID 2 fails with a transport error. -/
def envFail2 : Env :=
  ⟨.ok (.arr [.num 1, .num 2]),
    fun id => if id = 2 then .error "boom" else .ok (polloptJson id)⟩

/-- A concrete environment: the ID list is `[1, 2, 3]` and every item fetch
succeeds. -/
def envOk3 : Env :=
  ⟨.ok (.arr [.num 1, .num 2, .num 3]), fun id => .ok (polloptJson id)⟩

/-- A concrete environment whose ID-list endpoint returns a JSON string, so
decoding the ID list fails. -/
def badListEnv : Env := ⟨.ok (.str "oops"), fun _ => .error "unreachable"⟩

/-! ## Theorems -/

/-- C2: for every legally-decoded `Item` of any of the five variants,
`formatItem` returns a defined string that exactly matches the literal format
for that variant's tag — story `"{title}" submitted by {by}`, job
`job posting: {title}`, poll `poll: "{title}" - choose one of {N} options`
with `N` the length of `parts`, pollopt `poll option: {text}`, comment
`{by} commented: {excerpt}` — never falling through to a default case or
producing undefined output (the function is total over the closed union). -/
theorem formatItem_matches_format_table :
    (∀ s : Story,
      formatItem (.story s) = "\"" ++ s.top.title ++ "\" submitted by " ++ s.common.«by») ∧
    (∀ jb : Job, formatItem (.job jb) = "job posting: " ++ jb.top.title) ∧
    (∀ p : Poll,
      formatItem (.poll p) =
        "poll: \"" ++ p.top.title ++ "\" - choose one of " ++
          toString p.parts.length ++ " options") ∧
    (∀ p : PollOpt, formatItem (.pollopt p) = "poll option: " ++ p.text) ∧
    (∀ cm : Comment,
      formatItem (.comment cm) =
        cm.common.«by» ++ " commented: " ++
          (if cm.text.length > 60 then cm.text.take 60 ++ "..." else cm.text)) :=
  ⟨fun _ => rfl, fun _ => rfl, fun _ => rfl, fun _ => rfl, fun _ => rfl⟩

/-- C3: for every decoded comment item, the excerpt in the presenter output is
the comment's text unchanged when its length is at most 60 (in particular,
length exactly 60 gets no `...`), and is the first 60 characters followed by
`...` when the length is 61 or more. -/
theorem comment_excerpt_rule (cm : Comment) :
    (cm.text.length ≤ 60 →
      formatItem (.comment cm) = cm.common.«by» ++ " commented: " ++ cm.text) ∧
    (61 ≤ cm.text.length →
      formatItem (.comment cm) =
        cm.common.«by» ++ " commented: " ++ (cm.text.take 60 ++ "...")) := by
  constructor
  · intro h
    simp only [formatItem, if_neg (by omega : ¬ cm.text.length > 60)]
  · intro h
    simp only [formatItem, if_pos (by omega : cm.text.length > 60)]

/-- Witness for C3 at concrete comments: a 60-character text is rendered
unexcerpted and a 61-character text is excerpted to 60 characters plus
`...`. -/
theorem comment_excerpt_rule_witness :
    formatItem (.comment ⟨1, String.mk (List.replicate 60 'a'), ⟨"u", 2, 3, none, none, none⟩⟩) =
      "u" ++ " commented: " ++ String.mk (List.replicate 60 'a') ∧
    formatItem (.comment ⟨1, String.mk (List.replicate 61 'b'), ⟨"u", 2, 3, none, none, none⟩⟩) =
      "u" ++ " commented: " ++ ((String.mk (List.replicate 61 'b')).take 60 ++ "...") :=
  ⟨(comment_excerpt_rule _).1 (by decide),
   (comment_excerpt_rule _).2 (by decide)⟩

/-- C4 counterexample: the claim says the decoder rejects inputs whose `by`
or `title` is the empty string; in fact a story object with `by = ""` and
`title = ""` decodes successfully, and the accepted value carries the empty
author and title. -/
theorem decoder_accepts_empty_author_and_title :
    ItemV (storyJson "" "") [] =
      .ok (.story ⟨0, none, none, ⟨"", 1, 2, none, none, none⟩, ⟨3, ""⟩⟩) ∧
    (Story.mk 0 none none ⟨"", 1, 2, none, none, none⟩ ⟨3, ""⟩).common.«by» = "" ∧
    (Story.mk 0 none none ⟨"", 1, 2, none, none, none⟩ ⟨3, ""⟩).top.title = "" :=
  ⟨rfl, rfl, rfl⟩

/-- C4 amended: the decoder requires `by` (story, job, poll, comment) and
`title` (story, job, poll) to be present and of string type, but places no
non-emptiness constraint on them: any strings, the empty string included, are
accepted and carried unchanged into the result. -/
theorem decoder_accepts_any_author_and_title (b t : String) :
    ItemV (storyJson b t) [] =
      .ok (.story ⟨0, none, none, ⟨b, 1, 2, none, none, none⟩, ⟨3, t⟩⟩) ∧
    ItemV (jobJson b t) [] =
      .ok (.job ⟨none, none, ⟨b, 1, 2, none, none, none⟩, ⟨3, t⟩⟩) ∧
    ItemV (pollJson b t) [] =
      .ok (.poll ⟨0, [], ⟨b, 1, 2, none, none, none⟩, ⟨3, t⟩⟩) ∧
    ItemV (commentJson b) [] =
      .ok (.comment ⟨4, "c", ⟨b, 1, 2, none, none, none⟩⟩) :=
  ⟨rfl, rfl, rfl, rfl⟩

/-- C5: decoding an input object whose `type` field is absent, not a string,
or not one of the five accepted literal tags fails immediately with a single
error naming the `type` field and the set of accepted literal values, without
attempting any variant schema; the resulting error message names the `type`
field path. -/
theorem taggedUnion_unknown_tag_single_error (fs : List (String × Json))
    (h : badItemTag ((Json.obj fs).get "type") = true) :
    ItemV (.obj fs) [] =
      .error [⟨["type"], itemTagName, (Json.obj fs).get "type"⟩] ∧
    decodeToPromise ItemV (.obj fs) =
      .error ("Expecting " ++ itemTagName ++ " at type but instead got: " ++
        jsonRender ((Json.obj fs).get "type")) := by
  have hmain : ItemV (.obj fs) [] =
      .error [⟨["type"], itemTagName, (Json.obj fs).get "type"⟩] := by
    cases hg : (Json.obj fs).get "type" with
    | null => simp [ItemV, hg]
    | undefined => simp [ItemV, hg]
    | bool b => simp [ItemV, hg]
    | num n => simp [ItemV, hg]
    | arr xs => simp [ItemV, hg]
    | obj ofs => simp [ItemV, hg]
    | str s =>
      rw [hg] at h
      have h2 := of_decide_eq_true h
      push_neg at h2
      obtain ⟨h1, h2, h3, h4, h5⟩ := h2
      simp [ItemV, hg, h1, h2, h3, h4, h5]
  refine ⟨hmain, ?_⟩
  simp only [decodeToPromise]
  rw [hmain]
  rfl

/-- Witness for C5 at a concrete input: an object whose `type` is the
unrecognized string `"blog"`. -/
theorem taggedUnion_unknown_tag_single_error_witness :
    ItemV (.obj [("type", Json.str "blog")]) [] =
      .error [⟨["type"], itemTagName, .str "blog"⟩] ∧
    decodeToPromise ItemV (.obj [("type", Json.str "blog")]) =
      .error ("Expecting " ++ itemTagName ++ " at type but instead got: " ++
        jsonRender (.str "blog")) :=
  taggedUnion_unknown_tag_single_error [("type", .str "blog")] (by decide)

theorem lookupField_append_not_key (fs : List (String × Json)) (k k2 : String)
    (w : Json) (h : k2 ≠ k) :
    lookupField (fs ++ [(k, w)]) k2 = lookupField fs k2 := by
  induction fs with
  | nil => simp [lookupField, h]
  | cons p rest ih =>
    obtain ⟨a, b⟩ := p
    simp only [List.cons_append, lookupField]
    split
    · rfl
    · exact ih

theorem get_append_not_key (fs : List (String × Json)) (k k2 : String) (w : Json)
    (h : k2 ≠ k) :
    (Json.obj (fs ++ [(k, w)])).get k2 = (Json.obj fs).get k2 :=
  lookupField_append_not_key fs k k2 w h

theorem ItemCommonV_extra_field (fs : List (String × Json)) (k : String) (w : Json)
    (c : Ctx) (h : k ∉ commonKeys) :
    ItemCommonV (.obj (fs ++ [(k, w)])) c = ItemCommonV (.obj fs) c := by
  simp only [commonKeys, List.mem_cons, List.not_mem_nil, or_false, not_or] at h
  obtain ⟨h1, h2, h3, h4, h5, h6⟩ := h
  simp only [ItemCommonV, vField]
  rw [get_append_not_key fs k "by" w (Ne.symm h1),
    get_append_not_key fs k "id" w (Ne.symm h2),
    get_append_not_key fs k "time" w (Ne.symm h3),
    get_append_not_key fs k "dead" w (Ne.symm h4),
    get_append_not_key fs k "deleted" w (Ne.symm h5),
    get_append_not_key fs k "kids" w (Ne.symm h6)]

theorem TopLevelV_extra_field (fs : List (String × Json)) (k : String) (w : Json)
    (c : Ctx) (h : k ∉ topKeys) :
    TopLevelV (.obj (fs ++ [(k, w)])) c = TopLevelV (.obj fs) c := by
  simp only [topKeys, List.mem_cons, List.not_mem_nil, or_false, not_or] at h
  obtain ⟨h1, h2⟩ := h
  simp only [TopLevelV, vField]
  rw [get_append_not_key fs k "score" w (Ne.symm h1),
    get_append_not_key fs k "title" w (Ne.symm h2)]

theorem StoryV_extra_field (fs : List (String × Json)) (k : String) (w : Json)
    (c : Ctx) (h : k ∉ storyKeys) :
    StoryV (.obj (fs ++ [(k, w)])) c = StoryV (.obj fs) c := by
  simp only [storyKeys, List.mem_append, not_or] at h
  obtain ⟨⟨hOwn, hCommon⟩, hTop⟩ := h
  simp only [List.mem_cons, List.not_mem_nil, or_false, not_or] at hOwn
  obtain ⟨h1, h2, h3, h4⟩ := hOwn
  simp only [StoryV, vField]
  rw [get_append_not_key fs k "type" w (Ne.symm h1),
    get_append_not_key fs k "descendants" w (Ne.symm h2),
    get_append_not_key fs k "text" w (Ne.symm h3),
    get_append_not_key fs k "url" w (Ne.symm h4),
    ItemCommonV_extra_field fs k w c hCommon,
    TopLevelV_extra_field fs k w c hTop]

theorem JobV_extra_field (fs : List (String × Json)) (k : String) (w : Json)
    (c : Ctx) (h : k ∉ jobKeys) :
    JobV (.obj (fs ++ [(k, w)])) c = JobV (.obj fs) c := by
  simp only [jobKeys, List.mem_append, not_or] at h
  obtain ⟨⟨hOwn, hCommon⟩, hTop⟩ := h
  simp only [List.mem_cons, List.not_mem_nil, or_false, not_or] at hOwn
  obtain ⟨h1, h2, h3⟩ := hOwn
  simp only [JobV, vField]
  rw [get_append_not_key fs k "type" w (Ne.symm h1),
    get_append_not_key fs k "text" w (Ne.symm h2),
    get_append_not_key fs k "url" w (Ne.symm h3),
    ItemCommonV_extra_field fs k w c hCommon,
    TopLevelV_extra_field fs k w c hTop]

theorem PollV_extra_field (fs : List (String × Json)) (k : String) (w : Json)
    (c : Ctx) (h : k ∉ pollKeys) :
    PollV (.obj (fs ++ [(k, w)])) c = PollV (.obj fs) c := by
  simp only [pollKeys, List.mem_append, not_or] at h
  obtain ⟨⟨hOwn, hCommon⟩, hTop⟩ := h
  simp only [List.mem_cons, List.not_mem_nil, or_false, not_or] at hOwn
  obtain ⟨h1, h2, h3⟩ := hOwn
  simp only [PollV, vField]
  rw [get_append_not_key fs k "type" w (Ne.symm h1),
    get_append_not_key fs k "descendants" w (Ne.symm h2),
    get_append_not_key fs k "parts" w (Ne.symm h3),
    ItemCommonV_extra_field fs k w c hCommon,
    TopLevelV_extra_field fs k w c hTop]

theorem CommentV_extra_field (fs : List (String × Json)) (k : String) (w : Json)
    (c : Ctx) (h : k ∉ commentKeys) :
    CommentV (.obj (fs ++ [(k, w)])) c = CommentV (.obj fs) c := by
  simp only [commentKeys, List.mem_append, not_or] at h
  obtain ⟨hOwn, hCommon⟩ := h
  simp only [List.mem_cons, List.not_mem_nil, or_false, not_or] at hOwn
  obtain ⟨h1, h2, h3⟩ := hOwn
  simp only [CommentV, vField]
  rw [get_append_not_key fs k "type" w (Ne.symm h1),
    get_append_not_key fs k "parent" w (Ne.symm h2),
    get_append_not_key fs k "text" w (Ne.symm h3),
    ItemCommonV_extra_field fs k w c hCommon]

theorem PollOptV_extra_field (fs : List (String × Json)) (k : String) (w : Json)
    (c : Ctx) (h : k ∉ polloptKeys) :
    PollOptV (.obj (fs ++ [(k, w)])) c = PollOptV (.obj fs) c := by
  simp only [polloptKeys, List.mem_cons, List.not_mem_nil, or_false, not_or] at h
  obtain ⟨h1, h2, h3, h4⟩ := h
  simp only [PollOptV, vField]
  rw [get_append_not_key fs k "type" w (Ne.symm h1),
    get_append_not_key fs k "poll" w (Ne.symm h2),
    get_append_not_key fs k "score" w (Ne.symm h3),
    get_append_not_key fs k "text" w (Ne.symm h4)]

theorem except_map_ok {ε α β : Type} {f : α → β} {x : Except ε α} {y : β}
    (h : Except.map f x = .ok y) : ∃ a, x = .ok a ∧ y = f a := by
  cases x with
  | ok a =>
    refine ⟨a, rfl, ?_⟩
    simpa [Except.map] using h.symm
  | error e => simp [Except.map] at h

/-- C6: if an input object decodes successfully to an item, then the same
object extended with an extra field not declared in that item's variant schema
still decodes successfully — the extra field is not an error — and the typed
result is the very same `Item` value, which by construction has no slot for
the extra field. -/
theorem open_object_extra_field_ignored (fs : List (String × Json)) (k : String)
    (w : Json) (v : Item) (hok : ItemV (.obj fs) [] = .ok v)
    (hk : k ∉ variantKeys v.tag) :
    ItemV (.obj (fs ++ [(k, w)])) [] = .ok v := by
  cases hg : (Json.obj fs).get "type" with
  | null => simp [ItemV, hg] at hok
  | undefined => simp [ItemV, hg] at hok
  | bool b => simp [ItemV, hg] at hok
  | num n => simp [ItemV, hg] at hok
  | arr xs => simp [ItemV, hg] at hok
  | obj ofs => simp [ItemV, hg] at hok
  | str s =>
    by_cases hs1 : s = "comment"
    · subst hs1
      rw [show ItemV (Json.obj fs) [] =
          Except.map Item.comment (CommentV (Json.obj fs) []) from by
        simp [ItemV, hg]] at hok
      obtain ⟨cv, hcv, hv⟩ := except_map_ok hok
      subst hv
      simp only [Item.tag, variantKeys] at hk
      have hkt : k ≠ "type" := fun hh => hk (by rw [hh]; simp [commentKeys])
      rw [show ItemV (Json.obj (fs ++ [(k, w)])) [] =
          Except.map Item.comment (CommentV (Json.obj (fs ++ [(k, w)])) []) from by
        simp [ItemV, get_append_not_key fs k "type" w (Ne.symm hkt), hg]]
      rw [CommentV_extra_field fs k w [] hk, hcv]
      rfl
    · by_cases hs2 : s = "job"
      · subst hs2
        rw [show ItemV (Json.obj fs) [] =
            Except.map Item.job (JobV (Json.obj fs) []) from by
          simp [ItemV, hg]] at hok
        obtain ⟨cv, hcv, hv⟩ := except_map_ok hok
        subst hv
        simp only [Item.tag, variantKeys] at hk
        have hkt : k ≠ "type" := fun hh => hk (by rw [hh]; simp [jobKeys])
        rw [show ItemV (Json.obj (fs ++ [(k, w)])) [] =
            Except.map Item.job (JobV (Json.obj (fs ++ [(k, w)])) []) from by
          simp [ItemV, get_append_not_key fs k "type" w (Ne.symm hkt), hg]]
        rw [JobV_extra_field fs k w [] hk, hcv]
        rfl
      · by_cases hs3 : s = "poll"
        · subst hs3
          rw [show ItemV (Json.obj fs) [] =
              Except.map Item.poll (PollV (Json.obj fs) []) from by
            simp [ItemV, hg]] at hok
          obtain ⟨cv, hcv, hv⟩ := except_map_ok hok
          subst hv
          simp only [Item.tag, variantKeys] at hk
          have hkt : k ≠ "type" := fun hh => hk (by rw [hh]; simp [pollKeys])
          rw [show ItemV (Json.obj (fs ++ [(k, w)])) [] =
              Except.map Item.poll (PollV (Json.obj (fs ++ [(k, w)])) []) from by
            simp [ItemV, get_append_not_key fs k "type" w (Ne.symm hkt), hg]]
          rw [PollV_extra_field fs k w [] hk, hcv]
          rfl
        · by_cases hs4 : s = "pollopt"
          · subst hs4
            rw [show ItemV (Json.obj fs) [] =
                Except.map Item.pollopt (PollOptV (Json.obj fs) []) from by
              simp [ItemV, hg]] at hok
            obtain ⟨cv, hcv, hv⟩ := except_map_ok hok
            subst hv
            simp only [Item.tag, variantKeys] at hk
            have hkt : k ≠ "type" := fun hh => hk (by rw [hh]; simp [polloptKeys])
            rw [show ItemV (Json.obj (fs ++ [(k, w)])) [] =
                Except.map Item.pollopt (PollOptV (Json.obj (fs ++ [(k, w)])) []) from by
              simp [ItemV, get_append_not_key fs k "type" w (Ne.symm hkt), hg]]
            rw [PollOptV_extra_field fs k w [] hk, hcv]
            rfl
          · by_cases hs5 : s = "story"
            · subst hs5
              rw [show ItemV (Json.obj fs) [] =
                  Except.map Item.story (StoryV (Json.obj fs) []) from by
                simp [ItemV, hg]] at hok
              obtain ⟨cv, hcv, hv⟩ := except_map_ok hok
              subst hv
              simp only [Item.tag, variantKeys] at hk
              have hkt : k ≠ "type" := fun hh => hk (by rw [hh]; simp [storyKeys])
              rw [show ItemV (Json.obj (fs ++ [(k, w)])) [] =
                  Except.map Item.story (StoryV (Json.obj (fs ++ [(k, w)])) []) from by
                simp [ItemV, get_append_not_key fs k "type" w (Ne.symm hkt), hg]]
              rw [StoryV_extra_field fs k w [] hk, hcv]
              rfl
            · simp [ItemV, hg, hs1, hs2, hs3, hs4, hs5] at hok

/-- Witness for C6 at a concrete input: a valid pollopt object extended with
the field `by` — declared for other variants but not for `pollopt` — still
decodes to the same value. -/
theorem open_object_extra_field_ignored_witness :
    ItemV (.obj ([("type", Json.str "pollopt"), ("poll", Json.num 9),
        ("score", Json.num 5), ("text", Json.str "opt")] ++
        [("by", Json.num 0)])) [] =
      .ok (.pollopt ⟨9, 5, "opt"⟩) :=
  open_object_extra_field_ignored
    [("type", .str "pollopt"), ("poll", .num 9), ("score", .num 5),
      ("text", .str "opt")]
    "by" (.num 0) (.pollopt ⟨9, 5, "opt"⟩) rfl (by decide)

/-- C7: for every field wrapped in the `optional` combinator, decoding
succeeds when the field is absent (`undefined`) and when it is present with a
value accepted by the base validator; the two cases are distinguished by the
explicit absent marker (`none` versus `some`); a present `null` is rejected
(not conflated with absence), and a present value of the wrong type fails. -/
theorem optional_combinator_spec {α : Type} (v : Validator α) (c : Ctx)
    (hundef : ∃ e, v .undefined c = .error e) (hnull : ∃ e, v .null c = .error e) :
    (optional v .undefined c = .ok none) ∧
    (∀ j a, v j c = .ok a → optional v j c = .ok (some a)) ∧
    (∃ e, optional v .null c = .error e ∧ e ≠ []) ∧
    (∀ j e, v j c = .error e → j ≠ .undefined →
      ∃ e2, optional v j c = .error e2 ∧ e2 ≠ []) := by
  obtain ⟨eu, heu⟩ := hundef
  obtain ⟨en, hen⟩ := hnull
  refine ⟨by simp [optional, heu], fun j a h => by simp [optional, h],
    ⟨en ++ [⟨c, "undefined", .null⟩], by simp [optional, hen], by simp⟩, ?_⟩
  intro j e h hj
  refine ⟨e ++ [⟨c, "undefined", j⟩], ?_, by simp⟩
  cases j with
  | undefined => exact absurd rfl hj
  | null => simp [optional, h]
  | bool b => simp [optional, h]
  | num n => simp [optional, h]
  | str s => simp [optional, h]
  | arr xs => simp [optional, h]
  | obj fs => simp [optional, h]

/-- Witness for C7 at the `t.boolean` base validator used by the `dead` and
`deleted` fields: absence decodes to the absent marker, a present boolean
decodes to `some`, and `null` or a number is rejected. -/
theorem optional_combinator_spec_witness :
    (optional vBoolean .undefined [] = .ok none) ∧
    (optional vBoolean (.bool true) [] = .ok (some true)) ∧
    (∃ e, optional vBoolean .null [] = .error e ∧ e ≠ []) ∧
    (∃ e2, optional vBoolean (.num 3) [] = .error e2 ∧ e2 ≠ []) := by
  obtain ⟨h1, h2, h3, h4⟩ := optional_combinator_spec vBoolean []
    ⟨[⟨[], "boolean", .undefined⟩], rfl⟩ ⟨[⟨[], "boolean", .null⟩], rfl⟩
  exact ⟨h1, h2 _ _ rfl, h3,
    h4 (.num 3) [⟨[], "boolean", .num 3⟩] rfl (fun hh => Json.noConfusion hh)⟩

theorem errsOf_ok {α : Type} (a : α) : errsOf (Except.ok a : VResult α) = [] := rfl

theorem errsOf_err {α : Type} (e : List VError) :
    errsOf (Except.error e : VResult α) = e := rfl

theorem errsOf_vMap2 {α β γ : Type} (f : α → β → γ) (ra : VResult α)
    (rb : VResult β) : errsOf (vMap2 f ra rb) = errsOf ra ++ errsOf rb := by
  cases ra <;> cases rb <;> simp [vMap2, errsOf]

theorem errsOf_seqV {α β : Type} (rf : VResult (α → β)) (ra : VResult α) :
    errsOf (seqV rf ra) = errsOf rf ++ errsOf ra := errsOf_vMap2 _ _ _

theorem vMap2_error_ne_nil {α β γ : Type} {f : α → β → γ} {ra : VResult α}
    {rb : VResult β} (ha : ∀ e, ra = .error e → e ≠ [])
    (hb : ∀ e, rb = .error e → e ≠ [])
    {e : List VError} (h : vMap2 f ra rb = .error e) : e ≠ [] := by
  cases ra with
  | ok a =>
    cases rb with
    | ok b => simp [vMap2] at h
    | error eb =>
      simp [vMap2] at h
      subst h
      exact hb _ rfl
  | error ea =>
    cases rb with
    | ok b =>
      simp [vMap2] at h
      subst h
      exact ha _ rfl
    | error eb =>
      simp [vMap2] at h
      subst h
      intro hnil
      exact ha _ rfl (List.append_eq_nil.mp hnil).1

theorem vString_error_ne_nil (j : Json) (c : Ctx) (e : List VError)
    (h : vString j c = .error e) : e ≠ [] := by
  cases j <;> simp [vString] at h <;> simp [← h]

theorem vNumber_error_ne_nil (j : Json) (c : Ctx) (e : List VError)
    (h : vNumber j c = .error e) : e ≠ [] := by
  cases j <;> simp [vNumber] at h <;> simp [← h]

theorem vBoolean_error_ne_nil (j : Json) (c : Ctx) (e : List VError)
    (h : vBoolean j c = .error e) : e ≠ [] := by
  cases j <;> simp [vBoolean] at h <;> simp [← h]

theorem vLiteral_error_ne_nil (lit : String) (j : Json) (c : Ctx) (e : List VError)
    (h : vLiteral lit j c = .error e) : e ≠ [] := by
  cases j with
  | str s =>
    by_cases hs : s = lit
    · simp [vLiteral, hs] at h
    · simp [vLiteral, hs] at h
      simp [← h]
  | null => simp [vLiteral] at h; simp [← h]
  | undefined => simp [vLiteral] at h; simp [← h]
  | bool b => simp [vLiteral] at h; simp [← h]
  | num n => simp [vLiteral] at h; simp [← h]
  | arr xs => simp [vLiteral] at h; simp [← h]
  | obj fs => simp [vLiteral] at h; simp [← h]

theorem optional_error_ne_nil {α : Type} (v : Validator α) (j : Json) (c : Ctx)
    (e : List VError) (h : optional v j c = .error e) : e ≠ [] := by
  cases hvc : v j c with
  | ok a => simp [optional, hvc] at h
  | error e1 =>
    simp only [optional, hvc] at h
    cases j with
    | undefined => simp at h
    | null => simp at h; simp [← h]
    | bool b => simp at h; simp [← h]
    | num n => simp at h; simp [← h]
    | str s => simp at h; simp [← h]
    | arr xs => simp at h; simp [← h]
    | obj fs => simp at h; simp [← h]

theorem vArrayAux_error_ne_nil {α : Type} {v : Validator α}
    (hv : ∀ j c e, v j c = .error e → e ≠ []) (c : Ctx) (xs : List Json) :
    ∀ (i : Nat) (e : List VError), vArrayAux v c i xs = .error e → e ≠ [] := by
  induction xs with
  | nil => intro i e h; simp [vArrayAux] at h
  | cons x rest ih =>
    intro i e h
    simp only [vArrayAux] at h
    exact vMap2_error_ne_nil (fun e2 h2 => hv _ _ e2 h2) (fun e2 h2 => ih _ e2 h2) h

theorem vArray_error_ne_nil {α : Type} {v : Validator α}
    (hv : ∀ j c e, v j c = .error e → e ≠ []) (j : Json) (c : Ctx)
    (e : List VError) (h : vArray v j c = .error e) : e ≠ [] := by
  cases j with
  | arr xs => exact vArrayAux_error_ne_nil hv c xs 0 e (by simpa [vArray] using h)
  | null => simp [vArray] at h; simp [← h]
  | undefined => simp [vArray] at h; simp [← h]
  | bool b => simp [vArray] at h; simp [← h]
  | num n => simp [vArray] at h; simp [← h]
  | str s => simp [vArray] at h; simp [← h]
  | obj fs => simp [vArray] at h; simp [← h]

theorem ItemCommonV_error_ne_nil (j : Json) (c : Ctx) (e : List VError)
    (h : ItemCommonV j c = .error e) : e ≠ [] := by
  cases j with
  | obj fs =>
    simp only [ItemCommonV, seqV] at h
    exact vMap2_error_ne_nil
      (fun e h => vMap2_error_ne_nil
        (fun e h => vMap2_error_ne_nil
          (fun e h => vMap2_error_ne_nil
            (fun e h => vMap2_error_ne_nil
              (fun e h => vMap2_error_ne_nil
                (fun e h => Except.noConfusion h)
                (fun e h => vString_error_ne_nil _ _ e h) h)
              (fun e h => vNumber_error_ne_nil _ _ e h) h)
            (fun e h => vNumber_error_ne_nil _ _ e h) h)
          (fun e h => optional_error_ne_nil vBoolean _ _ e h) h)
        (fun e h => optional_error_ne_nil vBoolean _ _ e h) h)
      (fun e h => optional_error_ne_nil (vArray vNumber) _ _ e h) h
  | null => simp [ItemCommonV] at h; simp [← h]
  | undefined => simp [ItemCommonV] at h; simp [← h]
  | bool b => simp [ItemCommonV] at h; simp [← h]
  | num n => simp [ItemCommonV] at h; simp [← h]
  | str s => simp [ItemCommonV] at h; simp [← h]
  | arr xs => simp [ItemCommonV] at h; simp [← h]

theorem TopLevelV_error_ne_nil (j : Json) (c : Ctx) (e : List VError)
    (h : TopLevelV j c = .error e) : e ≠ [] := by
  cases j with
  | obj fs =>
    simp only [TopLevelV, seqV] at h
    exact vMap2_error_ne_nil
      (fun e h => vMap2_error_ne_nil
        (fun e h => Except.noConfusion h)
        (fun e h => vNumber_error_ne_nil _ _ e h) h)
      (fun e h => vString_error_ne_nil _ _ e h) h
  | null => simp [TopLevelV] at h; simp [← h]
  | undefined => simp [TopLevelV] at h; simp [← h]
  | bool b => simp [TopLevelV] at h; simp [← h]
  | num n => simp [TopLevelV] at h; simp [← h]
  | str s => simp [TopLevelV] at h; simp [← h]
  | arr xs => simp [TopLevelV] at h; simp [← h]

theorem StoryV_error_ne_nil (j : Json) (c : Ctx) (e : List VError)
    (h : StoryV j c = .error e) : e ≠ [] := by
  cases j with
  | obj fs =>
    simp only [StoryV, seqV] at h
    exact vMap2_error_ne_nil
      (fun e h => vMap2_error_ne_nil
        (fun e h => vMap2_error_ne_nil
          (fun e h => vMap2_error_ne_nil
            (fun e h => vMap2_error_ne_nil
              (fun e h => vMap2_error_ne_nil
                (fun e h => vLiteral_error_ne_nil "story" _ _ e h)
                (fun e h => Except.noConfusion h) h)
              (fun e h => vNumber_error_ne_nil _ _ e h) h)
            (fun e h => optional_error_ne_nil vString _ _ e h) h)
          (fun e h => optional_error_ne_nil vString _ _ e h) h)
        (fun e h => ItemCommonV_error_ne_nil _ _ e h) h)
      (fun e h => TopLevelV_error_ne_nil _ _ e h) h
  | null => simp [StoryV] at h; simp [← h]
  | undefined => simp [StoryV] at h; simp [← h]
  | bool b => simp [StoryV] at h; simp [← h]
  | num n => simp [StoryV] at h; simp [← h]
  | str s => simp [StoryV] at h; simp [← h]
  | arr xs => simp [StoryV] at h; simp [← h]

theorem JobV_error_ne_nil (j : Json) (c : Ctx) (e : List VError)
    (h : JobV j c = .error e) : e ≠ [] := by
  cases j with
  | obj fs =>
    simp only [JobV, seqV] at h
    exact vMap2_error_ne_nil
      (fun e h => vMap2_error_ne_nil
        (fun e h => vMap2_error_ne_nil
          (fun e h => vMap2_error_ne_nil
            (fun e h => vMap2_error_ne_nil
              (fun e h => vLiteral_error_ne_nil "job" _ _ e h)
              (fun e h => Except.noConfusion h) h)
            (fun e h => optional_error_ne_nil vString _ _ e h) h)
          (fun e h => optional_error_ne_nil vString _ _ e h) h)
        (fun e h => ItemCommonV_error_ne_nil _ _ e h) h)
      (fun e h => TopLevelV_error_ne_nil _ _ e h) h
  | null => simp [JobV] at h; simp [← h]
  | undefined => simp [JobV] at h; simp [← h]
  | bool b => simp [JobV] at h; simp [← h]
  | num n => simp [JobV] at h; simp [← h]
  | str s => simp [JobV] at h; simp [← h]
  | arr xs => simp [JobV] at h; simp [← h]

theorem PollV_error_ne_nil (j : Json) (c : Ctx) (e : List VError)
    (h : PollV j c = .error e) : e ≠ [] := by
  cases j with
  | obj fs =>
    simp only [PollV, seqV] at h
    exact vMap2_error_ne_nil
      (fun e h => vMap2_error_ne_nil
        (fun e h => vMap2_error_ne_nil
          (fun e h => vMap2_error_ne_nil
            (fun e h => vMap2_error_ne_nil
              (fun e h => vLiteral_error_ne_nil "poll" _ _ e h)
              (fun e h => Except.noConfusion h) h)
            (fun e h => vNumber_error_ne_nil _ _ e h) h)
          (fun e h => vArray_error_ne_nil (fun j2 c2 e2 h2 =>
            vNumber_error_ne_nil j2 c2 e2 h2) _ _ e h) h)
        (fun e h => ItemCommonV_error_ne_nil _ _ e h) h)
      (fun e h => TopLevelV_error_ne_nil _ _ e h) h
  | null => simp [PollV] at h; simp [← h]
  | undefined => simp [PollV] at h; simp [← h]
  | bool b => simp [PollV] at h; simp [← h]
  | num n => simp [PollV] at h; simp [← h]
  | str s => simp [PollV] at h; simp [← h]
  | arr xs => simp [PollV] at h; simp [← h]

theorem CommentV_error_ne_nil (j : Json) (c : Ctx) (e : List VError)
    (h : CommentV j c = .error e) : e ≠ [] := by
  cases j with
  | obj fs =>
    simp only [CommentV, seqV] at h
    exact vMap2_error_ne_nil
      (fun e h => vMap2_error_ne_nil
        (fun e h => vMap2_error_ne_nil
          (fun e h => vMap2_error_ne_nil
            (fun e h => vLiteral_error_ne_nil "comment" _ _ e h)
            (fun e h => Except.noConfusion h) h)
          (fun e h => vNumber_error_ne_nil _ _ e h) h)
        (fun e h => vString_error_ne_nil _ _ e h) h)
      (fun e h => ItemCommonV_error_ne_nil _ _ e h) h
  | null => simp [CommentV] at h; simp [← h]
  | undefined => simp [CommentV] at h; simp [← h]
  | bool b => simp [CommentV] at h; simp [← h]
  | num n => simp [CommentV] at h; simp [← h]
  | str s => simp [CommentV] at h; simp [← h]
  | arr xs => simp [CommentV] at h; simp [← h]

theorem PollOptV_error_ne_nil (j : Json) (c : Ctx) (e : List VError)
    (h : PollOptV j c = .error e) : e ≠ [] := by
  cases j with
  | obj fs =>
    simp only [PollOptV, seqV] at h
    exact vMap2_error_ne_nil
      (fun e h => vMap2_error_ne_nil
        (fun e h => vMap2_error_ne_nil
          (fun e h => vMap2_error_ne_nil
            (fun e h => vLiteral_error_ne_nil "pollopt" _ _ e h)
            (fun e h => Except.noConfusion h) h)
          (fun e h => vNumber_error_ne_nil _ _ e h) h)
        (fun e h => vNumber_error_ne_nil _ _ e h) h)
      (fun e h => vString_error_ne_nil _ _ e h) h
  | null => simp [PollOptV] at h; simp [← h]
  | undefined => simp [PollOptV] at h; simp [← h]
  | bool b => simp [PollOptV] at h; simp [← h]
  | num n => simp [PollOptV] at h; simp [← h]
  | str s => simp [PollOptV] at h; simp [← h]
  | arr xs => simp [PollOptV] at h; simp [← h]

theorem map_error {ε α β : Type} {f : α → β} {x : Except ε α} {e : ε}
    (h : Except.map f x = .error e) : x = .error e := by
  cases x with
  | ok a => simp [Except.map] at h
  | error e0 => simpa [Except.map] using h

theorem ItemV_error_ne_nil (j : Json) (c : Ctx) (e : List VError)
    (h : ItemV j c = .error e) : e ≠ [] := by
  cases j with
  | obj fs =>
    simp only [ItemV] at h
    split at h
    · split at h
      · exact CommentV_error_ne_nil _ _ e (map_error h)
      · split at h
        · exact JobV_error_ne_nil _ _ e (map_error h)
        · split at h
          · exact PollV_error_ne_nil _ _ e (map_error h)
          · split at h
            · exact PollOptV_error_ne_nil _ _ e (map_error h)
            · split at h
              · exact StoryV_error_ne_nil _ _ e (map_error h)
              · simp at h; simp [← h]
    · simp at h; simp [← h]
  | null => simp [ItemV] at h; simp [← h]
  | undefined => simp [ItemV] at h; simp [← h]
  | bool b => simp [ItemV] at h; simp [← h]
  | num n => simp [ItemV] at h; simp [← h]
  | str s => simp [ItemV] at h; simp [← h]
  | arr xs => simp [ItemV] at h; simp [← h]

/-- C8: on every failing decode the result is a `ValidationError` with a
non-empty ordered sequence of field-level failures; for an object checked
against the `Story` schema the failures are exactly the concatenation, in
field order, of every failing field's errors (one pass, no short-circuit at
the first failing field); the failures are joined into one multi-line report
by `decodeToPromise`; and no partial decoded value is returned on failure. -/
theorem validation_error_collection (j : Json) :
    (∀ e, ItemV j [] = .error e → e ≠ []) ∧
    (∀ fs c e, StoryV (.obj fs) c = .error e → e = storyFieldErrors (.obj fs) c) ∧
    (∀ e, ItemV j [] = .error e →
      decodeToPromise ItemV j = .error (String.intercalate "\n" (e.map formatError)) ∧
      ∀ v, ItemV j [] ≠ .ok v) := by
  refine ⟨fun e h => ItemV_error_ne_nil j [] e h, ?_, ?_⟩
  · intro fs c e h
    have h2 : e = errsOf (StoryV (.obj fs) c) := by rw [h, errsOf_err]
    rw [h2]
    simp only [StoryV, errsOf_seqV, errsOf_vMap2, errsOf_ok, storyFieldErrors,
      commonFieldErrors, topFieldErrors, ItemCommonV, TopLevelV,
      List.append_assoc, List.nil_append, List.append_nil]
  · intro e h
    refine ⟨?_, fun v hv => by rw [h] at hv; exact Except.noConfusion hv⟩
    simp only [decodeToPromise]
    rw [h]

/-- Witness for C8 at a concrete input: a story object carrying only its tag,
whose decode fails with the non-empty, field-ordered collection of every
missing required field's error, reported as one joined message. -/
theorem validation_error_collection_witness :
    errsOf (ItemV (Json.obj [("type", Json.str "story")]) []) ≠ [] ∧
    errsOf (StoryV (Json.obj [("type", Json.str "story")]) []) =
      storyFieldErrors (Json.obj [("type", Json.str "story")]) [] ∧
    decodeToPromise ItemV (Json.obj [("type", Json.str "story")]) =
      .error (String.intercalate "\n"
        ((errsOf (ItemV (Json.obj [("type", Json.str "story")]) [])).map
          formatError)) := by
  obtain ⟨h1, h2, h3⟩ := validation_error_collection
    (Json.obj [("type", Json.str "story")])
  exact ⟨h1 _ rfl, h2 _ _ _ rfl, (h3 _ rfl).1⟩

theorem promiseAll_ok_length {α β : Type} (f : α → Except String β) (xs : List α)
    (ys : List β) (h : promiseAll f xs = .ok ys) : ys.length = xs.length := by
  induction xs generalizing ys with
  | nil =>
    simp only [promiseAll] at h
    simp at h
    simp [← h]
  | cons x rest ih =>
    simp only [promiseAll] at h
    cases hfx : f x with
    | error e => rw [hfx] at h; simp at h
    | ok y =>
      rw [hfx] at h
      cases hrest : promiseAll f rest with
      | error e => rw [hrest] at h; simp at h
      | ok ys0 =>
        rw [hrest] at h
        simp at h
        subst h
        simp [ih ys0 hrest]

theorem promiseAll_ok_get {α β : Type} (f : α → Except String β) (xs : List α)
    (ys : List β) (h : promiseAll f xs = .ok ys) :
    ∀ (i : Nat) (h1 : i < xs.length) (h2 : i < ys.length),
      f (xs.get ⟨i, h1⟩) = .ok (ys.get ⟨i, h2⟩) := by
  induction xs generalizing ys with
  | nil => intro i h1 h2; simp at h1
  | cons x rest ih =>
    intro i h1 h2
    simp only [promiseAll] at h
    cases hfx : f x with
    | error e => rw [hfx] at h; simp at h
    | ok y =>
      rw [hfx] at h
      cases hrest : promiseAll f rest with
      | error e => rw [hrest] at h; simp at h
      | ok ys0 =>
        rw [hrest] at h
        simp at h
        subst h
        cases i with
        | zero => simpa using hfx
        | succ n => exact ih ys0 hrest n (by simpa using h1) (by simpa using h2)

theorem promiseAll_error_of_mem {α β : Type} (f : α → Except String β)
    (xs : List α) (a : α) (ha : a ∈ xs) (e : String) (hf : f a = .error e) :
    ∃ e2, promiseAll f xs = .error e2 := by
  induction xs with
  | nil => cases ha
  | cons x rest ih =>
    rcases List.mem_cons.mp ha with h1 | h2
    · subst h1
      exact ⟨e, by simp [promiseAll, hf]⟩
    · obtain ⟨e2, he2⟩ := ih h2
      cases hfx : f x with
      | error e3 => exact ⟨e3, by simp [promiseAll, hfx]⟩
      | ok y => exact ⟨e2, by simp [promiseAll, hfx, he2]⟩

theorem fetchTopStories_run (env : Env) (count : Int) (tj : Json)
    (ids : List Int) (hts : env.topstories = .ok tj)
    (hdec : decodeToPromise (vArray vNumber) tj = .ok ids) :
    fetchTopStories env count = promiseAll (fetchItem env) (jsSlice ids count) := by
  simp [fetchTopStories, hts, hdec]

/-- C9: the batch fetch returns the decoded items in the same order as the
decoded ID list (the concurrency combinator is order-preserving by
construction, independent of completion order), and if any single item fetch
or decode fails then the whole batch fails and no items are returned. -/
theorem batch_preserves_order_and_fails_whole (env : Env) (count : Int)
    (tj : Json) (ids : List Int) (hts : env.topstories = .ok tj)
    (hdec : decodeToPromise (vArray vNumber) tj = .ok ids) :
    (∀ items, fetchTopStories env count = .ok items →
      items.length = (jsSlice ids count).length ∧
      ∀ (i : Nat) (h1 : i < (jsSlice ids count).length) (h2 : i < items.length),
        fetchItem env ((jsSlice ids count).get ⟨i, h1⟩) = .ok (items.get ⟨i, h2⟩)) ∧
    (∀ id0, id0 ∈ jsSlice ids count → ∀ e, fetchItem env id0 = .error e →
      ∃ e2, fetchTopStories env count = .error e2) := by
  have hrun := fetchTopStories_run env count tj ids hts hdec
  constructor
  · intro items hok
    rw [hrun] at hok
    exact ⟨promiseAll_ok_length _ _ _ hok,
      fun i h1 h2 => promiseAll_ok_get _ _ _ hok i h1 h2⟩
  · intro id0 hmem e hfail
    obtain ⟨e2, he2⟩ := promiseAll_error_of_mem (fetchItem env) _ id0 hmem e hfail
    exact ⟨e2, by rw [hrun, he2]⟩

/-- Witness for C9 at a concrete environment: for the ID list `[1, 2]` with
the fetch of ID 2 failing, the whole two-element batch fails. -/
theorem batch_preserves_order_and_fails_whole_witness :
    ∃ e2, fetchTopStories envFail2 2 = .error e2 :=
  (batch_preserves_order_and_fails_whole envFail2 2 (.arr [.num 1, .num 2])
      [1, 2] rfl rfl).2 2 (by decide) "boom" rfl

theorem jsSlice_nonneg {α : Type} (xs : List α) (count : Int) (h : 0 ≤ count) :
    jsSlice xs count = xs.take count.toNat := by
  simp only [jsSlice]
  rw [if_neg (by omega)]
  rcases le_or_lt count ((xs.length : Int)) with hle | hlt
  · rw [min_eq_left hle]
  · rw [min_eq_right hlt.le]
    have h1 : ((xs.length : Int)).toNat = xs.length := by omega
    rw [h1, List.take_length, List.take_of_length_le (by omega)]

theorem jsSlice_zero {α : Type} (xs : List α) : jsSlice xs 0 = [] := by
  rw [jsSlice_nonneg xs 0 le_rfl]
  rfl

theorem jsSlice_neg {α : Type} (xs : List α) (count : Int) (h : count < 0) :
    jsSlice xs count = xs.take (xs.length - count.natAbs) := by
  simp only [jsSlice]
  rw [if_pos h]
  congr 1
  rcases le_or_lt ((xs.length : Int) + count) 0 with h2 | h2
  · rw [max_eq_right h2]
    omega
  · rw [max_eq_left h2.le]
    omega

/-- C10: `fetchTopStories` fetches exactly the items for `ids.slice(0, count)`
of the decoded ID list: for `count ≥ 0` the first `min count |ids|` IDs (with
`count = 0` yielding the empty batch), and for `count < 0` every ID except
the last `|count|` ones — a negative count silently yields a large batch
rather than an empty result or an error. -/
theorem count_slices_id_list (env : Env) (count : Int) (tj : Json)
    (ids : List Int) (hts : env.topstories = .ok tj)
    (hdec : decodeToPromise (vArray vNumber) tj = .ok ids) :
    (0 ≤ count → fetchTopStories env count =
      promiseAll (fetchItem env) (ids.take count.toNat)) ∧
    (fetchTopStories env 0 = .ok []) ∧
    (count < 0 → fetchTopStories env count =
      promiseAll (fetchItem env) (ids.take (ids.length - count.natAbs))) := by
  refine ⟨?_, ?_, ?_⟩
  · intro h
    rw [fetchTopStories_run env count tj ids hts hdec, jsSlice_nonneg ids count h]
  · rw [fetchTopStories_run env 0 tj ids hts hdec, jsSlice_zero]
    rfl
  · intro h
    rw [fetchTopStories_run env count tj ids hts hdec, jsSlice_neg ids count h]

/-- Witness for C10 at a concrete environment with ID list `[1, 2, 3]`: a
count of `-1` fetches all but the last ID, a count of `0` fetches nothing. -/
theorem count_slices_id_list_witness :
    fetchTopStories envOk3 (-1) =
      promiseAll (fetchItem envOk3) (([1, 2, 3] : List Int).take (3 - 1)) ∧
    fetchTopStories envOk3 0 = .ok [] := by
  obtain ⟨h1, h2, h3⟩ := count_slices_id_list envOk3 (-1) (.arr [.num 1, .num 2, .num 3])
    [1, 2, 3] rfl rfl
  exact ⟨h3 (by decide), h2⟩

/-- C1 counterexample: the claim says that on a pipeline error the message is
printed to standard error and the process exits non-zero; in fact on the
concrete failing environment `badListEnv` the message is printed to standard
error but the error is swallowed in `main` and the exit code is 0. -/
theorem error_logged_but_exit_zero_counterexample :
    (main badListEnv).stderr = ["Expecting array but instead got: \"oops\""] ∧
    (main badListEnv).exitCode = 0 ∧ (main badListEnv).stdout = [] :=
  ⟨rfl, rfl, rfl⟩

/-- C1 amended: for every error raised anywhere in the pipeline (fetch,
decode of the ID list, decode of any item), the program prints that error's
message to standard error and prints no items; but the error is caught in
`main` without setting an exit code, so the process exits with code 0, not a
non-zero code. -/
theorem pipeline_error_logged_exit_zero (env : Env) (e : String)
    (h : fetchTopStories env 15 = .error e) :
    (main env).stderr = [e] ∧ (main env).exitCode = 0 ∧ (main env).stdout = [] := by
  simp [main, h]

/-- Witness for C1 (amended) at the concrete failing environment. -/
theorem pipeline_error_logged_exit_zero_witness :
    (main badListEnv).stderr = ["Expecting array but instead got: \"oops\""] ∧
    (main badListEnv).exitCode = 0 ∧ (main badListEnv).stdout = [] :=
  pipeline_error_logged_exit_zero badListEnv
    "Expecting array but instead got: \"oops\"" rfl

end HN
